import Mathlib

set_option linter.unusedVariables false

/-!
Shallow embedding of the epoll-server reactor core (src/server.c) and proofs
about its behaviour.  Pure control flow is translated directly; the operating
system is abstracted by explicit oracles (read results, accept results,
syscall success flags), and heap pointers by natural-number addresses in an
association-list heap.  Events record the externally visible actions of the
engine: handler callbacks, echo writes, shutdown/close syscalls and logged
diagnostics.
-/

/-- CLIENT_BUF_SIZE from server.c: capacity of the per-client scratch buffer. -/
def CLIENT_BUF_SIZE : Nat := 2048

/-- Externally visible actions of the engine.  Each constructor corresponds to
a call site in server.c: a read syscall, the echo write in srv_onReceive, the
handler callbacks raised by the srv_onX helpers, the shutdown/close syscalls
in cl_free, the accept syscall, epoll_ctl registration, and stderr
diagnostics (perror/fprintf). -/
inductive Ev
  | readCall
  | echoWrite (sd : Int) (bytes : List Nat)
  | onReceive (addr : String) (bytes : List Nat)
  | onConnect (addr : String)
  | onDisconnect (addr : String)
  | onStart
  | onStop
  | shutdownCall (sd : Int)
  | closeCall (sd : Int)
  | acceptCall
  | epollCtlAdd (sd : Int)
  | logErr (msg : String)
deriving DecidableEq

/-- How the read loop in srv_handleReceive terminates once the available data
is exhausted: read returns -1 with errno EAGAIN (would block), read returns 0
(orderly peer shutdown), or read returns -1 with another errno. -/
inductive Terminal
  | wouldBlock
  | eof
  | errOther
deriving DecidableEq

/-- The local view of a client used by the receive path: its peer address
string and its socket descriptor (fields addr and sd of struct client). -/
structure ClientR where
  addr : String
  sd : Int
deriving DecidableEq

/-- The successive chunks returned by read(cl->sd, cl->buffer, CLIENT_BUF_SIZE)
when the bytes in input are available on the socket: each read takes at most
CLIENT_BUF_SIZE bytes from the front of the remaining input. -/
def chunks (input : List Nat) : List (List Nat) :=
  if h : input = [] then []
  else input.take CLIENT_BUF_SIZE :: chunks (input.drop CLIENT_BUF_SIZE)
termination_by input.length
decreasing_by
  rw [List.length_drop]
  have hpos : 0 < input.length := List.length_pos.mpr h
  show input.length - 2048 < input.length
  omega

/-- The lengths of the chunks that a stream of n available bytes is split
into by the CLIENT_BUF_SIZE-bounded read loop. -/
def lenChunks (n : Nat) : List Nat :=
  if n = 0 then [] else min CLIENT_BUF_SIZE n :: lenChunks (n - CLIENT_BUF_SIZE)
termination_by n
decreasing_by
  show n - 2048 < n
  omega

/-- Concatenation of a chunk list back into a byte list. -/
def joinList : List (List Nat) → List Nat
  | [] => []
  | c :: cs => c ++ joinList cs

/-- The event trace produced for a list of chunks: for each chunk, the read
that obtained it, then the echo write of srv_onReceive, then the on_receive
callback; exactly in this order (srv_handleReceive calls srv_onReceive once
per successful read, and srv_onReceive writes the echo before invoking the
callback). -/
def chunkTrace (cl : ClientR) : List (List Nat) → List Ev
  | [] => []
  | c :: cs =>
    Ev.readCall :: Ev.echoWrite cl.sd c :: Ev.onReceive cl.addr c :: chunkTrace cl cs

/-- Diagnostic events emitted when the read loop hits its terminal read:
a non-EAGAIN error is perror-logged, the other two cases log nothing. -/
def termEvs : Terminal → List Ev
  | Terminal.wouldBlock => []
  | Terminal.eof => []
  | Terminal.errOther => [Ev.logErr "read"]

/-- The done flag of srv_handleReceive: set (1) by a zero-length read or a
non-EAGAIN error, left clear (0) by EAGAIN. -/
def doneOf : Terminal → Bool
  | Terminal.wouldBlock => false
  | Terminal.eof => true
  | Terminal.errOther => true

/-- The while(1) read loop of srv_handleReceive: reads CLIENT_BUF_SIZE-bounded
chunks of the available input, calling srv_onReceive (echo write then
on_receive callback) for each, until the terminal read ends the loop.
Returns the emitted events and the done flag. -/
def recvLoop (cl : ClientR) (input : List Nat) (t : Terminal) : List Ev × Bool :=
  if h : input = [] then
    (Ev.readCall :: termEvs t, doneOf t)
  else
    let rest := recvLoop cl (input.drop CLIENT_BUF_SIZE) t
    (Ev.readCall :: Ev.echoWrite cl.sd (input.take CLIENT_BUF_SIZE) ::
      Ev.onReceive cl.addr (input.take CLIENT_BUF_SIZE) :: rest.1, rest.2)
termination_by input.length
decreasing_by
  rw [List.length_drop]
  have hpos : 0 < input.length := List.length_pos.mpr h
  show input.length - 2048 < input.length
  omega

/-- srv_handleReceive: run the read loop; if the done flag was set, raise
on_disconnect (while cl and its addr are still valid) and then destroy the
client (modelled by returning none). -/
def srv_handleReceive (cl : ClientR) (input : List Nat) (t : Terminal) :
    List Ev × Option ClientR :=
  let r := recvLoop cl input t
  if r.2 = true then (r.1 ++ [Ev.onDisconnect cl.addr], none) else (r.1, some cl)

/-- A client node in the circular doubly-linked clients list: the next/prev
pointers (heap addresses), the socket descriptor and the peer address string
(fields next, prev, sd and addr of struct client). -/
structure Node where
  next : Nat
  prev : Nat
  sd : Int
  addr : String
deriving DecidableEq

/-- The connection registry: the heap of allocated client nodes, addressed by
natural numbers standing for pointers, and the list head pointer
srv->clients (none models NULL). -/
structure Registry where
  heap : List (Nat × Node)
  head : Option Nat
deriving DecidableEq

/-- Dereference a client pointer: look its node up in the heap.  Looking up
an unallocated (or already freed) address yields none, modelling an invalid
dereference. -/
def hlookup : List (Nat × Node) → Nat → Option Node
  | [], _ => none
  | (k, v) :: t, p => if k = p then some v else hlookup t p

/-- Write through a client pointer: replace the node stored at address k. -/
def hset : List (Nat × Node) → Nat → Node → List (Nat × Node)
  | [], _, _ => []
  | (k1, v1) :: t, k, v =>
    if k1 = k then (k1, v) :: hset t k v else (k1, v1) :: hset t k v

/-- free(cl): deallocate the node at address p. -/
def herase : List (Nat × Node) → Nat → List (Nat × Node)
  | [], _ => []
  | (k, v) :: t, p => if k = p then herase t p else (k, v) :: herase t p

/-- cl_free from server.c: remove the client at address p from the clients
list and free its resources.  The C source tests cl != cl->next and repairs
the neighbour links in that case; here the sole-member branch (cl == cl->next,
which resets srv->clients to NULL) comes first and the repair branch second.
In the repair branch the two neighbour writes happen in source order
(cl->next->prev = cl->prev, then cl->prev->next = cl->next, the second read
seeing the first write).  The head pointer is not updated in the repair
branch, exactly as in the source.  If cl->sd > -1 the socket is shut down and
closed; finally the node is freed.  Dereferencing an unallocated address
yields none. -/
def cl_free (r : Registry) (p : Nat) : Option (Registry × List Ev) :=
  (hlookup r.heap p).bind (fun node =>
    let effs := if node.sd > -1 then [Ev.shutdownCall node.sd, Ev.closeCall node.sd] else []
    if p = node.next then
      some ({ heap := herase r.heap p, head := none }, effs)
    else
      (hlookup r.heap node.next).bind (fun nx =>
        let h1 := hset r.heap node.next { nx with prev := node.prev }
        (hlookup h1 node.prev).bind (fun pv =>
          let h2 := hset h1 node.prev { pv with next := node.next }
          some ({ heap := herase h2 p, head := r.head }, effs))))

/-- cl_create from server.c (the list-splicing part, after a successful
malloc): allocate a node at the fresh address p with the given socket and
peer address, and splice it in before the head (becoming the tail of the
circular list); with an empty list it becomes the sole self-linked member and
the new head.  The two writes of the nonempty branch happen in source
order. -/
def cl_create (r : Registry) (p : Nat) (sd : Int) (addr : String) : Option Registry :=
  match r.head with
  | none =>
    some { heap := (p, { next := p, prev := p, sd := sd, addr := addr }) :: r.heap,
           head := some p }
  | some h =>
    (hlookup r.heap h).bind (fun hd =>
      let node : Node := { next := h, prev := hd.prev, sd := sd, addr := addr }
      (hlookup r.heap hd.prev).bind (fun tl =>
        let h1 := hset r.heap hd.prev { tl with next := p }
        (hlookup h1 h).bind (fun hd1 =>
          let h2 := hset h1 h { hd1 with prev := p }
          some { heap := (p, node) :: h2, head := r.head })))

/-- The lookups performed by cl_create succeed: the head (if any) and its
prev neighbour are allocated. -/
def spliceOk (r : Registry) : Bool :=
  match r.head with
  | none => true
  | some h =>
    match hlookup r.heap h with
    | none => false
    | some hd => (hlookup r.heap hd.prev).isSome

/-- Number of occurrences of an event in a trace. -/
def countEv (e : Ev) : List Ev → Nat
  | [] => 0
  | x :: t => (if x = e then 1 else 0) + countEv e t

/-- Result of srv_freeAllClients: normal return, an invalid dereference of a
freed node (undefined behaviour in the C source), or more loop iterations
than the given fuel. -/
inductive FreeAllRes
  | ok (r : Registry) (effs : List Ev)
  | ubRes
  | noFuelRes
deriving DecidableEq

/-- srv_freeAllClients from server.c: while (srv->clients != NULL)
cl_free(srv->clients).  The fuel bounds the number of loop iterations; acc
accumulates the emitted shutdown/close events. -/
def srv_freeAllClients : Nat → Registry → List Ev → FreeAllRes
  | 0, r, acc => if r.head = none then FreeAllRes.ok r acc else FreeAllRes.noFuelRes
  | fuel + 1, r, acc =>
    match r.head with
    | none => FreeAllRes.ok r acc
    | some p =>
      match cl_free r p with
      | none => FreeAllRes.ubRes
      | some (r1, effs) => srv_freeAllClients fuel r1 (acc ++ effs)

/-- Outcomes of the syscalls made by srv_handleAccept: the accept result
(descriptor and textual peer address, none when accept fails), and the
success of srv_setNonBlocking, of the malloc inside cl_create, and of the
epoll_ctl registration. -/
structure AcceptOracle where
  acceptRes : Option (Int × String)
  setNonBlockingOk : Bool
  mallocOk : Bool
  epollCtlOk : Bool
deriving DecidableEq

/-- srv_handleAccept from server.c: accept one pending connection; on accept
failure only perror is called.  On success the socket is made non-blocking,
a client is created and registered edge-triggered with epoll, and on_connect
is raised; a failure of any of these steps branches to on_error, which calls
cl_free(cl) (a no-op when cl is still NULL) and then close(sd) on the raw
descriptor.  p is the fresh heap address the client is allocated at. -/
def srv_handleAccept (r : Registry) (o : AcceptOracle) (p : Nat) : Registry × List Ev :=
  match o.acceptRes with
  | none => (r, [Ev.acceptCall, Ev.logErr "accept"])
  | some (sd, addr) =>
    if o.setNonBlockingOk = false then
      (r, [Ev.acceptCall, Ev.logErr "fcntl", Ev.closeCall sd])
    else if o.mallocOk = false then
      (r, [Ev.acceptCall, Ev.logErr "malloc", Ev.closeCall sd])
    else
      match cl_create r p sd addr with
      | none => (r, [Ev.acceptCall, Ev.logErr "heap"])
      | some r1 =>
        if o.epollCtlOk = false then
          match cl_free r1 p with
          | none => (r1, [Ev.acceptCall, Ev.logErr "heap"])
          | some (r2, effs) =>
            (r2, [Ev.acceptCall, Ev.logErr "epoll_ctl"] ++ effs ++ [Ev.closeCall sd])
        else
          (r1, [Ev.acceptCall, Ev.epollCtlAdd sd, Ev.onConnect addr])

/-- The readiness flags of one epoll event: EPOLLERR, EPOLLHUP and EPOLLIN. -/
structure EpollFlags where
  err : Bool
  hup : Bool
  readable : Bool
deriving DecidableEq

/-- The opaque association stored in the epoll data pointer at registration
time: the server itself (for the listener socket) or a client address. -/
inductive Assoc
  | listener
  | conn (p : Nat)
deriving DecidableEq

/-- Which handler the event loop dispatches an event to. -/
inductive Dispatch
  | toError (a : Assoc)
  | toAccept
  | toReceive (p : Nat)
deriving DecidableEq

/-- The dispatch test of srv_eventLoop: an event with EPOLLERR or EPOLLHUP
set, or EPOLLIN clear, goes to srv_handleError no matter what its data
pointer is; otherwise the listener association goes to srv_handleAccept and a
client association to srv_handleReceive. -/
def classifyEvent (f : EpollFlags) (a : Assoc) : Dispatch :=
  if f.err || f.hup || !f.readable then Dispatch.toError a
  else
    match a with
    | Assoc.listener => Dispatch.toAccept
    | Assoc.conn p => Dispatch.toReceive p

/-- srv_handleError from server.c, for an event associated with the client at
address p: log the error, raise on_disconnect with the peer address of the
still-live client, then cl_free it. -/
def srv_handleError (r : Registry) (p : Nat) : Option (Registry × List Ev) :=
  (hlookup r.heap p).bind (fun node =>
    (cl_free r p).map (fun rc =>
      (rc.1, Ev.logErr "epoll" :: Ev.onDisconnect node.addr :: rc.2)))

/-- Which of the five optional callbacks of struct srv_handler are set. -/
structure HandlerSet where
  hasOnStart : Bool
  hasOnStop : Bool
  hasOnConnect : Bool
  hasOnDisconnect : Bool
  hasOnReceive : Bool
deriving DecidableEq

/-- struct server: the optional handler, the clients list, the server socket
descriptor and the shouldQuit flag. -/
structure Server where
  handler : Option HandlerSet
  clients : Registry
  sd : Int
  shouldQuit : Bool
deriving DecidableEq

/-- srv_onStart: raise on_start when a handler with that callback is set. -/
def srv_onStart (srv : Server) : List Ev :=
  match srv.handler with
  | some h => if h.hasOnStart then [Ev.onStart] else []
  | none => []

/-- srv_onStop: raise on_stop when a handler with that callback is set. -/
def srv_onStop (srv : Server) : List Ev :=
  match srv.handler with
  | some h => if h.hasOnStop then [Ev.onStop] else []
  | none => []

/-- Outcomes of the syscalls made by srv_run and srv_eventLoop: the
createAndBind result (the listener descriptor, or none when socket/bind
fails), and the success of srv_setNonBlocking, listen, epoll_create1, the
epoll_ctl registration of the listener, and the calloc of the event queue. -/
structure RunOracle where
  bindSd : Option Int
  setNonBlockingOk : Bool
  listenOk : Bool
  epollCreateOk : Bool
  epollAddListenerOk : Bool
  callocOk : Bool
deriving DecidableEq

/-- Result of srv_run: a return with the status code, the final server state
and the emitted events; or the two abnormal outcomes of the shutdown loop
(invalid dereference, fuel exhaustion). -/
inductive RunRes
  | ret (rc : Int) (srv : Option Server) (evs : List Ev)
  | ubRes (evs : List Ev)
  | noFuelRes (evs : List Ev)
deriving DecidableEq

/-- srv_eventLoop from server.c, up to the wait/dispatch loop itself:
epoll_create1 failure returns immediately; then the listener is registered
and the event queue allocated, either failure jumping to cleanup; on success
shouldQuit is cleared and the loop runs (abstracted by loopFn, which maps the
server state at loop entry to the state and events at loop exit). -/
def srv_eventLoop (srv : Server) (o : RunOracle)
    (loopFn : Server → Server × List Ev) : Server × List Ev :=
  if o.epollCreateOk = false then (srv, [Ev.logErr "epoll_create1"])
  else if o.epollAddListenerOk = false then (srv, [Ev.logErr "epoll_ctl"])
  else if o.callocOk = false then (srv, [Ev.logErr "calloc"])
  else loopFn { srv with shouldQuit := false }

/-- The on_exit epilogue of srv_run: srv_freeAllClients, close(srv->sd),
srv->sd = -1, return rc. -/
def runEpilogue (srv : Server) (rc : Int) (evs : List Ev) (fuel : Nat) : RunRes :=
  match srv_freeAllClients fuel srv.clients [] with
  | FreeAllRes.ok r effs =>
    RunRes.ret rc (some { srv with clients := r, sd := -1 })
      (evs ++ effs ++ [Ev.closeCall srv.sd])
  | FreeAllRes.ubRes => RunRes.ubRes evs
  | FreeAllRes.noFuelRes => RunRes.noFuelRes evs

/-- srv_run from server.c: reject a NULL server or one whose listener socket
is already set; bind (on failure srv->sd stays -1 and run returns -1); set
non-blocking and listen, either failure jumping to the epilogue with rc = -1;
otherwise raise on_start, run srv_eventLoop, raise on_stop, and reach the
epilogue with rc = 0 (the listen result). -/
def srv_run (srv? : Option Server) (port queueSize : Int) (o : RunOracle)
    (loopFn : Server → Server × List Ev) (fuel : Nat) : RunRes :=
  match srv? with
  | none => RunRes.ret (-1) none [Ev.logErr "Invalid server instance."]
  | some srv =>
    if srv.sd > -1 then RunRes.ret (-1) (some srv) [Ev.logErr "Invalid server instance."]
    else
      match o.bindSd with
      | none => RunRes.ret (-1) (some { srv with sd := -1 }) [Ev.logErr "bind"]
      | some lsd =>
        let s1 := { srv with sd := lsd }
        if o.setNonBlockingOk = false then
          runEpilogue s1 (-1) [Ev.logErr "fcntl"] fuel
        else if o.listenOk = false then
          runEpilogue s1 (-1) [Ev.logErr "listen"] fuel
        else
          let startEvs := srv_onStart s1
          let lp := srv_eventLoop s1 o loopFn
          let stopEvs := srv_onStop lp.1
          runEpilogue lp.1 0 (startEvs ++ lp.2 ++ stopEvs) fuel

/-- srv_setHandler from server.c: store the handler, or return -1 on a NULL
server. -/
def srv_setHandler (srv? : Option Server) (h : Option HandlerSet) :
    Int × Option Server :=
  match srv? with
  | some srv => (0, some { srv with handler := h })
  | none => (-1, none)

/-- srv_stop from server.c: set shouldQuit, or only log on a NULL server. -/
def srv_stop (srv? : Option Server) : Option Server × List Ev :=
  match srv? with
  | some srv => (some { srv with shouldQuit := true }, [])
  | none => (none, [Ev.logErr "Invalid server instance."])

/-- srv_free from server.c: a no-op on NULL; otherwise free all clients,
close the server socket when it is set, and free the instance.  none models
the shutdown loop failing to terminate normally. -/
def srv_free (srv? : Option Server) (fuel : Nat) : Option (List Ev) :=
  match srv? with
  | none => some []
  | some srv =>
    match srv_freeAllClients fuel srv.clients [] with
    | FreeAllRes.ok _ effs =>
      some (effs ++ if srv.sd > -1 then [Ev.closeCall srv.sd] else [])
    | _ => none

/-- A loop body that processes no events: the wait/dispatch loop exits at
once with the state unchanged. -/
def idLoop : Server → Server × List Ev := fun s => (s, [])

/-- Recursion principle matching the CLIENT_BUF_SIZE-step descent of the
read loop. -/
theorem chunks_rec (P : List Nat → Prop) (h0 : P [])
    (h1 : ∀ l : List Nat, l ≠ [] → P (l.drop CLIENT_BUF_SIZE) → P l)
    (l : List Nat) : P l := by
  have key : ∀ n : Nat, ∀ l : List Nat, l.length ≤ n → P l := by
    intro n
    induction n with
    | zero =>
      intro l hl
      have hnil : l = [] := List.length_eq_zero.mp (Nat.le_zero.mp hl)
      exact hnil ▸ h0
    | succ n ih =>
      intro l hl
      by_cases hn : l = []
      · exact hn ▸ h0
      · refine h1 l hn (ih _ ?_)
        rw [List.length_drop]
        have hpos : 0 < l.length := List.length_pos.mpr hn
        show l.length - 2048 ≤ n
        omega
  exact key l.length l (Nat.le_refl _)

theorem chunks_nil : chunks [] = [] := by
  rw [chunks]
  simp

theorem chunks_cons (l : List Nat) (h : l ≠ []) :
    chunks l = l.take CLIENT_BUF_SIZE :: chunks (l.drop CLIENT_BUF_SIZE) := by
  rw [chunks]
  simp [h]

theorem lenChunks_zero : lenChunks 0 = [] := by
  rw [lenChunks]
  simp

theorem lenChunks_pos (n : Nat) (h : n ≠ 0) :
    lenChunks n = min CLIENT_BUF_SIZE n :: lenChunks (n - CLIENT_BUF_SIZE) := by
  rw [lenChunks]
  simp [h]

/-- The chunks concatenate back to the input: no byte is lost or reordered. -/
theorem chunks_join (l : List Nat) : joinList (chunks l) = l := by
  induction l using chunks_rec with
  | h0 => rw [chunks_nil]; rfl
  | h1 l h ih =>
    rw [chunks_cons l h]
    show l.take CLIENT_BUF_SIZE ++ joinList (chunks (l.drop CLIENT_BUF_SIZE)) = l
    rw [ih, List.take_append_drop]

/-- Every chunk fits in the scratch buffer. -/
theorem chunks_sizes (l : List Nat) : ∀ c ∈ chunks l, c.length ≤ CLIENT_BUF_SIZE := by
  induction l using chunks_rec with
  | h0 => rw [chunks_nil]; intro c hc; cases hc
  | h1 l h ih =>
    rw [chunks_cons l h]
    intro c hc
    rcases List.mem_cons.mp hc with hc | hc
    · subst hc
      rw [List.length_take]
      exact Nat.min_le_left _ _
    · exact ih c hc

/-- The chunk lengths are exactly lenChunks of the input length. -/
theorem chunks_map_length (l : List Nat) :
    (chunks l).map List.length = lenChunks l.length := by
  induction l using chunks_rec with
  | h0 => rw [chunks_nil, List.length_nil, lenChunks_zero]; rfl
  | h1 l h ih =>
    have hlen : l.length ≠ 0 := by
      have := List.length_pos.mpr h
      omega
    rw [chunks_cons l h, lenChunks_pos _ hlen]
    show (l.take CLIENT_BUF_SIZE).length ::
        (chunks (l.drop CLIENT_BUF_SIZE)).map List.length
        = min CLIENT_BUF_SIZE l.length :: lenChunks (l.length - CLIENT_BUF_SIZE)
    rw [List.length_take, ih, List.length_drop]

/-- The chunk lengths sum to the number of available bytes. -/
theorem lenChunks_sum (n : Nat) : (lenChunks n).sum = n := by
  induction n using Nat.strong_induction_on with
  | _ n ih =>
    by_cases h : n = 0
    · rw [h, lenChunks_zero]; rfl
    · rw [lenChunks_pos n h, List.sum_cons]
      have hrec : (lenChunks (n - CLIENT_BUF_SIZE)).sum = n - CLIENT_BUF_SIZE := by
        refine ih _ ?_
        show n - 2048 < n
        omega
      rw [hrec]
      have : min CLIENT_BUF_SIZE n = min 2048 n := rfl
      rw [this]
      omega

/-- The read loop produces exactly the per-chunk trace (read, echo, callback
for each chunk, in order) followed by the terminal read, and sets the done
flag according to the terminal condition. -/
theorem recvLoop_spec (cl : ClientR) (t : Terminal) (l : List Nat) :
    recvLoop cl l t = (chunkTrace cl (chunks l) ++ Ev.readCall :: termEvs t, doneOf t) := by
  induction l using chunks_rec with
  | h0 =>
    rw [recvLoop, chunks_nil]
    simp [chunkTrace]
  | h1 l h ih =>
    rw [recvLoop, chunks_cons l h]
    simp only [h, dite_false]
    rw [ih]
    simp [chunkTrace]

/-- The per-chunk trace never contains a disconnect event. -/
theorem onDisconnect_not_in_chunkTrace (cl : ClientR) (a : String)
    (cs : List (List Nat)) : Ev.onDisconnect a ∉ chunkTrace cl cs := by
  induction cs with
  | nil => simp [chunkTrace]
  | cons c cs ih => simp [chunkTrace, ih]

theorem hlookup_herase_self (h : List (Nat × Node)) (p : Nat) :
    hlookup (herase h p) p = none := by
  induction h with
  | nil => rfl
  | cons kv t ih =>
    obtain ⟨k, v⟩ := kv
    by_cases hk : k = p <;> simp [herase, hlookup, hk, ih]

theorem hlookup_hset_isSome (h : List (Nat × Node)) (k k2 : Nat) (v : Node) :
    (hlookup (hset h k v) k2).isSome = (hlookup h k2).isSome := by
  induction h with
  | nil => rfl
  | cons kv t ih =>
    obtain ⟨k1, v1⟩ := kv
    by_cases h1 : k1 = k
    · subst h1
      simp only [hset, if_pos rfl]
      by_cases h2 : k1 = k2
      · subst h2
        simp [hlookup]
      · simp [hlookup, h2, ih]
    · simp only [hset, if_neg h1]
      by_cases h2 : k1 = k2
      · subst h2
        simp [hlookup]
      · simp [hlookup, h2, ih]

/-- cl_free in the sole-member branch (cl == cl->next): the registry head is
reset and the node freed. -/
theorem cl_free_sole (r : Registry) (p : Nat) (node : Node)
    (hp : hlookup r.heap p = some node) (hnx : p = node.next) :
    cl_free r p = some ({ heap := herase r.heap p, head := none },
      if node.sd > -1 then [Ev.shutdownCall node.sd, Ev.closeCall node.sd] else []) := by
  unfold cl_free
  rw [hp, Option.some_bind, if_pos hnx]

/-- cl_free in the repair branch (cl != cl->next): the neighbour links are
rewritten, the node freed, and the head left untouched. -/
theorem cl_free_repair (r : Registry) (p : Nat) (node nx pv : Node)
    (hp : hlookup r.heap p = some node) (hne : p ≠ node.next)
    (hnx : hlookup r.heap node.next = some nx)
    (hpv : hlookup (hset r.heap node.next { nx with prev := node.prev })
      node.prev = some pv) :
    cl_free r p = some
      ({ heap := herase (hset (hset r.heap node.next { nx with prev := node.prev })
            node.prev { pv with next := node.next }) p,
         head := r.head },
       if node.sd > -1 then [Ev.shutdownCall node.sd, Ev.closeCall node.sd] else []) := by
  unfold cl_free
  rw [hp, Option.some_bind, if_neg hne, hnx]
  simp only [Option.some_bind, hpv]

/-- Whenever cl_free returns normally, the freed address is gone from the
heap and the emitted effects are either nothing or exactly one shutdown
followed by one close of the same descriptor. -/
theorem cl_free_some_shape (r : Registry) (p : Nat) (r1 : Registry) (effs : List Ev)
    (hf : cl_free r p = some (r1, effs)) :
    hlookup r1.heap p = none ∧
      (effs = [] ∨ ∃ s : Int, effs = [Ev.shutdownCall s, Ev.closeCall s]) := by
  rcases hp : hlookup r.heap p with _ | node
  · unfold cl_free at hf
    rw [hp] at hf
    simp at hf
  · by_cases hnx : p = node.next
    · rw [cl_free_sole r p node hp hnx] at hf
      simp only [Option.some.injEq, Prod.mk.injEq] at hf
      obtain ⟨hr1, heffs⟩ := hf
      constructor
      · rw [← hr1]
        exact hlookup_herase_self r.heap p
      · by_cases hsd : node.sd > -1
        · right
          exact ⟨node.sd, by rw [← heffs, if_pos hsd]⟩
        · left
          rw [← heffs, if_neg hsd]
    · rcases hx : hlookup r.heap node.next with _ | nx
      · unfold cl_free at hf
        rw [hp] at hf
        simp [hnx, hx] at hf
      · rcases hv : hlookup (hset r.heap node.next { nx with prev := node.prev })
            node.prev with _ | pv
        · unfold cl_free at hf
          rw [hp] at hf
          simp [hnx, hx, hv] at hf
        · rw [cl_free_repair r p node nx pv hp hnx hx hv] at hf
          simp only [Option.some.injEq, Prod.mk.injEq] at hf
          obtain ⟨hr1, heffs⟩ := hf
          constructor
          · rw [← hr1]
            exact hlookup_herase_self _ p
          · by_cases hsd : node.sd > -1
            · right
              exact ⟨node.sd, by rw [← heffs, if_pos hsd]⟩
            · left
              rw [← heffs, if_neg hsd]

/-- cl_create on an empty clients list: the new node is self-linked and
becomes the head. -/
theorem cl_create_empty (r : Registry) (p : Nat) (sd : Int) (addr : String)
    (hh : r.head = none) :
    cl_create r p sd addr =
      some { heap := (p, { next := p, prev := p, sd := sd, addr := addr }) :: r.heap,
             head := some p } := by
  unfold cl_create
  rw [hh]

/-- cl_create on a nonempty clients list: the node is spliced in before the
head (as the new tail) and the head pointer is unchanged. -/
theorem cl_create_cons (r : Registry) (p : Nat) (sd : Int) (addr : String)
    (h : Nat) (hd tl hd1 : Node)
    (hh : r.head = some h) (hhd : hlookup r.heap h = some hd)
    (htl : hlookup r.heap hd.prev = some tl)
    (hhd1 : hlookup (hset r.heap hd.prev { tl with next := p }) h = some hd1) :
    cl_create r p sd addr =
      some { heap := (p, { next := h, prev := hd.prev, sd := sd, addr := addr }) ::
               hset (hset r.heap hd.prev { tl with next := p }) h { hd1 with prev := p },
             head := some h } := by
  unfold cl_create
  rw [hh]
  simp only [Option.some_bind, hhd, htl, hhd1]

/-- When the splice lookups succeed, cl_create succeeds. -/
theorem cl_create_isSome (r : Registry) (p : Nat) (sd : Int) (addr : String)
    (hsp : spliceOk r = true) : (cl_create r p sd addr).isSome = true := by
  rcases hh : r.head with _ | h
  · rw [cl_create_empty r p sd addr hh]
    rfl
  · unfold spliceOk at hsp
    rw [hh] at hsp
    rcases hhd : hlookup r.heap h with _ | hd
    · simp only [hhd] at hsp
      exact absurd hsp (by decide)
    · simp only [hhd] at hsp
      rcases htl : hlookup r.heap hd.prev with _ | tl
      · rw [htl] at hsp
        simp at hsp
      · rcases hhd1 : hlookup (hset r.heap hd.prev { tl with next := p }) h with _ | hd1
        · have h1s : (hlookup (hset r.heap hd.prev { tl with next := p }) h).isSome
              = true := by
            rw [hlookup_hset_isSome, hhd]
            rfl
          rw [hhd1] at h1s
          simp at h1s
        · rw [cl_create_cons r p sd addr h hd tl hd1 hh hhd htl hhd1]
          rfl

/-- After a successful cl_create at a fresh address, cl_free of that address
succeeds: the accept rollback path can free the just-created client. -/
theorem cl_free_create_isSome (r : Registry) (p : Nat) (sd : Int) (addr : String)
    (r1 : Registry) (hfresh : hlookup r.heap p = none)
    (hc : cl_create r p sd addr = some r1) :
    (cl_free r1 p).isSome = true := by
  rcases hh : r.head with _ | h
  · rw [cl_create_empty r p sd addr hh] at hc
    injection hc with hc1
    subst hc1
    have hp : hlookup ((p, { next := p, prev := p, sd := sd, addr := addr }) :: r.heap) p
        = some { next := p, prev := p, sd := sd, addr := addr } := by
      simp [hlookup]
    rw [cl_free_sole _ p _ hp rfl]
    rfl
  · unfold cl_create at hc
    rw [hh] at hc
    rcases hhd : hlookup r.heap h with _ | hd
    · simp only [hhd, Option.none_bind] at hc
      exact Option.noConfusion hc
    · simp only [hhd, Option.some_bind] at hc
      rcases htl : hlookup r.heap hd.prev with _ | tl
      · rw [htl] at hc
        simp at hc
      · simp only [htl, Option.some_bind] at hc
        rcases hhd1 : hlookup (hset r.heap hd.prev { tl with next := p }) h with _ | hd1
        · rw [hhd1] at hc
          simp at hc
        · simp only [hhd1, Option.some_bind] at hc
          injection hc with hc1
          subst hc1
          have hph : p ≠ h := by
            intro he
            rw [he, hhd] at hfresh
            cases hfresh
          have hppv : p ≠ hd.prev := by
            intro he
            rw [he, htl] at hfresh
            cases hfresh
          have hp : hlookup ((p, { next := h, prev := hd.prev, sd := sd, addr := addr }) ::
                hset (hset r.heap hd.prev { tl with next := p }) h { hd1 with prev := p }) p
              = some { next := h, prev := hd.prev, sd := sd, addr := addr } := by
            simp [hlookup]
          have hAh : (hlookup ((p, { next := h, prev := hd.prev, sd := sd, addr := addr }) ::
                hset (hset r.heap hd.prev { tl with next := p }) h { hd1 with prev := p })
                h).isSome = true := by
            simp only [hlookup, if_neg hph]
            rw [hlookup_hset_isSome, hlookup_hset_isSome, hhd]
            rfl
          rcases hnx2 : hlookup ((p, { next := h, prev := hd.prev, sd := sd, addr := addr }) ::
              hset (hset r.heap hd.prev { tl with next := p }) h { hd1 with prev := p }) h
              with _ | nx
          · rw [hnx2] at hAh
            simp at hAh
          · have hBs : (hlookup (hset
                  ((p, { next := h, prev := hd.prev, sd := sd, addr := addr }) ::
                    hset (hset r.heap hd.prev { tl with next := p }) h { hd1 with prev := p })
                  h { nx with prev := hd.prev }) hd.prev).isSome = true := by
              rw [hlookup_hset_isSome]
              simp only [hlookup, if_neg hppv]
              rw [hlookup_hset_isSome, hlookup_hset_isSome, htl]
              rfl
            rcases hpv2 : hlookup (hset
                ((p, { next := h, prev := hd.prev, sd := sd, addr := addr }) ::
                  hset (hset r.heap hd.prev { tl with next := p }) h { hd1 with prev := p })
                h { nx with prev := hd.prev }) hd.prev with _ | pv
            · rw [hpv2] at hBs
              simp at hBs
            · rw [cl_free_repair _ p { next := h, prev := hd.prev, sd := sd, addr := addr }
                nx pv hp hph hnx2 hpv2]
              rfl

/-- Whenever cl_free returns normally, the emitted effects are exactly one
shutdown and one close of the node descriptor when it was open (and nothing
otherwise), and the freed address is gone from the result heap. -/
theorem cl_free_spec (r : Registry) (p : Nat) (node : Node) (r1 : Registry)
    (effs : List Ev) (hp : hlookup r.heap p = some node)
    (hf : cl_free r p = some (r1, effs)) :
    effs = (if node.sd > -1 then [Ev.shutdownCall node.sd, Ev.closeCall node.sd] else [])
    ∧ hlookup r1.heap p = none := by
  by_cases hnx : p = node.next
  · rw [cl_free_sole r p node hp hnx] at hf
    simp only [Option.some.injEq, Prod.mk.injEq] at hf
    obtain ⟨hr1, heffs⟩ := hf
    refine ⟨heffs.symm, ?_⟩
    rw [← hr1]
    exact hlookup_herase_self r.heap p
  · rcases hx : hlookup r.heap node.next with _ | nx
    · unfold cl_free at hf
      rw [hp] at hf
      simp [hnx, hx] at hf
    · rcases hv : hlookup (hset r.heap node.next { nx with prev := node.prev }) node.prev
          with _ | pv
      · unfold cl_free at hf
        rw [hp] at hf
        simp [hnx, hx, hv] at hf
      · rw [cl_free_repair r p node nx pv hp hnx hx hv] at hf
        simp only [Option.some.injEq, Prod.mk.injEq] at hf
        obtain ⟨hr1, heffs⟩ := hf
        refine ⟨heffs.symm, ?_⟩
        rw [← hr1]
        exact hlookup_herase_self _ p

/-- C1: when a readable event is handled for a connection, the receive
handler reads in a loop until the read would block; the chunks partition the
available bytes in order into pieces of at most the scratch-buffer capacity
CLIENT_BUF_SIZE = 2048, so the lengths passed to on_receive across the event
sum to the number of available bytes; 5000 available bytes yield the lengths
2048, 2048, 904; and each chunk is echoed back to the same socket
byte-for-byte before the next chunk is read (the trace is read, echo,
on_receive for each chunk in order, ending with the terminal read). -/
theorem C1_drain_completeness (cl : ClientR) (input : List Nat) (t : Terminal) :
    joinList (chunks input) = input
    ∧ (∀ c ∈ chunks input, c.length ≤ CLIENT_BUF_SIZE)
    ∧ ((chunks input).map List.length).sum = input.length
    ∧ recvLoop cl input t
        = (chunkTrace cl (chunks input) ++ Ev.readCall :: termEvs t, doneOf t)
    ∧ (∀ b : Nat, (chunks (List.replicate 5000 b)).map List.length = [2048, 2048, 904]) := by
  refine ⟨chunks_join input, chunks_sizes input, ?_, recvLoop_spec cl t input, ?_⟩
  · rw [chunks_map_length]
    exact lenChunks_sum input.length
  · intro b
    have e0 : lenChunks 0 = [] := lenChunks_zero
    have e3 : lenChunks 904 = [904] := by
      rw [lenChunks_pos 904 (by norm_num),
        show 904 - CLIENT_BUF_SIZE = 0 from by norm_num [CLIENT_BUF_SIZE], e0]
      norm_num [CLIENT_BUF_SIZE]
    have e2 : lenChunks 2952 = 2048 :: lenChunks 904 := by
      rw [lenChunks_pos 2952 (by norm_num)]
      norm_num [CLIENT_BUF_SIZE]
    have e1 : lenChunks 5000 = 2048 :: lenChunks 2952 := by
      rw [lenChunks_pos 5000 (by norm_num)]
      norm_num [CLIENT_BUF_SIZE]
    rw [chunks_map_length, List.length_replicate, e1, e2, e3]

/-- Witness for C1 at a concrete client, input and terminal condition. -/
theorem C1_drain_completeness_witness :
    joinList (chunks [7]) = [7]
    ∧ (∀ c ∈ chunks [7], c.length ≤ CLIENT_BUF_SIZE)
    ∧ ((chunks [7]).map List.length).sum = ([7] : List Nat).length
    ∧ recvLoop ⟨"1.2.3.4", 9⟩ [7] Terminal.wouldBlock
        = (chunkTrace ⟨"1.2.3.4", 9⟩ (chunks [7]) ++
            Ev.readCall :: termEvs Terminal.wouldBlock, doneOf Terminal.wouldBlock)
    ∧ (∀ b : Nat, (chunks (List.replicate 5000 b)).map List.length = [2048, 2048, 904]) :=
  C1_drain_completeness ⟨"1.2.3.4", 9⟩ [7] Terminal.wouldBlock

/-- C5: in the receive loop a would-block read error ends the loop normally
without tearing down the connection (the client survives and no disconnect
is raised), while a zero-length read or any other read error ends the loop
and marks the connection for teardown: on_disconnect is raised with the
still-valid peer address and only then is the client destroyed. -/
theorem C5_receive_teardown (cl : ClientR) (input : List Nat) :
    srv_handleReceive cl input Terminal.wouldBlock
      = ((recvLoop cl input Terminal.wouldBlock).1, some cl)
    ∧ Ev.onDisconnect cl.addr ∉ (srv_handleReceive cl input Terminal.wouldBlock).1
    ∧ srv_handleReceive cl input Terminal.eof
      = ((recvLoop cl input Terminal.eof).1 ++ [Ev.onDisconnect cl.addr], none)
    ∧ srv_handleReceive cl input Terminal.errOther
      = ((recvLoop cl input Terminal.errOther).1 ++ [Ev.onDisconnect cl.addr], none) := by
  have hwb := recvLoop_spec cl Terminal.wouldBlock input
  have heof := recvLoop_spec cl Terminal.eof input
  have herr := recvLoop_spec cl Terminal.errOther input
  refine ⟨?_, ?_, ?_, ?_⟩
  · unfold srv_handleReceive
    rw [hwb]
    simp [doneOf]
  · unfold srv_handleReceive
    rw [hwb]
    simp only [doneOf, termEvs, if_neg (by decide : ¬(false = true))]
    simp [onDisconnect_not_in_chunkTrace]
  · unfold srv_handleReceive
    rw [heof]
    simp [doneOf]
  · unfold srv_handleReceive
    rw [herr]
    simp [doneOf]

/-- Witness for C5 at a concrete client and input. -/
theorem C5_receive_teardown_witness :
    srv_handleReceive ⟨"a", 4⟩ [1, 2] Terminal.wouldBlock
      = ((recvLoop ⟨"a", 4⟩ [1, 2] Terminal.wouldBlock).1, some ⟨"a", 4⟩)
    ∧ Ev.onDisconnect (ClientR.mk "a" 4).addr
        ∉ (srv_handleReceive ⟨"a", 4⟩ [1, 2] Terminal.wouldBlock).1
    ∧ srv_handleReceive ⟨"a", 4⟩ [1, 2] Terminal.eof
      = ((recvLoop ⟨"a", 4⟩ [1, 2] Terminal.eof).1 ++
          [Ev.onDisconnect (ClientR.mk "a" 4).addr], none)
    ∧ srv_handleReceive ⟨"a", 4⟩ [1, 2] Terminal.errOther
      = ((recvLoop ⟨"a", 4⟩ [1, 2] Terminal.errOther).1 ++
          [Ev.onDisconnect (ClientR.mk "a" 4).addr], none) :=
  C5_receive_teardown ⟨"a", 4⟩ [1, 2]

/-- C3: the claim that destroying a Connection unsplices it so that it is no
longer reachable from the registry head pointer fails on the code: cl_free
never advances srv->clients when the freed client is the current head and
other clients remain.  After creating clients 1 and 2 and destroying client
1 (the head), the neighbour links of client 2 are repaired (it is
self-linked) but the registry head still holds the freed address 1, which is
no longer allocated. -/
theorem C3_head_dangles :
    cl_create { heap := [], head := none } 1 10 "a"
      = some { heap := [(1, { next := 1, prev := 1, sd := 10, addr := "a" })],
               head := some 1 }
    ∧ cl_create { heap := [(1, { next := 1, prev := 1, sd := 10, addr := "a" })],
                  head := some 1 } 2 20 "b"
      = some { heap := [(2, { next := 1, prev := 1, sd := 20, addr := "b" }),
                        (1, { next := 2, prev := 2, sd := 10, addr := "a" })],
               head := some 1 }
    ∧ cl_free { heap := [(2, { next := 1, prev := 1, sd := 20, addr := "b" }),
                         (1, { next := 2, prev := 2, sd := 10, addr := "a" })],
                head := some 1 } 1
      = some ({ heap := [(2, { next := 2, prev := 2, sd := 20, addr := "b" })],
                head := some 1 },
              [Ev.shutdownCall 10, Ev.closeCall 10])
    ∧ hlookup [(2, { next := 2, prev := 2, sd := 20, addr := "b" })] 1 = none := by
  decide

/-- C8: the claim that run drains every remaining Connection fails on the
code: starting from the two-client registry built by two accepts,
srv_freeAllClients frees the head (client 1) but the head pointer still
holds the freed address, so the next loop iteration dereferences freed
memory (undefined behaviour in the C source); the loop never returns
normally and client 2 is never destroyed, whatever the iteration bound. -/
theorem C8_shutdown_stuck (fuel : Nat) (r : Registry) (effs : List Ev) :
    srv_freeAllClients fuel
      { heap := [(2, { next := 1, prev := 1, sd := 20, addr := "b" }),
                 (1, { next := 2, prev := 2, sd := 10, addr := "a" })], head := some 1 } []
      ≠ FreeAllRes.ok r effs := by
  intro hok
  rcases fuel with _ | _ | n
  · rw [show srv_freeAllClients 0
        { heap := [(2, { next := 1, prev := 1, sd := 20, addr := "b" }),
                   (1, { next := 2, prev := 2, sd := 10, addr := "a" })], head := some 1 } []
        = FreeAllRes.noFuelRes from rfl] at hok
    exact FreeAllRes.noConfusion hok
  · rw [show srv_freeAllClients 1
        { heap := [(2, { next := 1, prev := 1, sd := 20, addr := "b" }),
                   (1, { next := 2, prev := 2, sd := 10, addr := "a" })], head := some 1 } []
        = FreeAllRes.noFuelRes from rfl] at hok
    exact FreeAllRes.noConfusion hok
  · rw [show srv_freeAllClients (n + 2)
        { heap := [(2, { next := 1, prev := 1, sd := 20, addr := "b" }),
                   (1, { next := 2, prev := 2, sd := 10, addr := "a" })], head := some 1 } []
        = FreeAllRes.ubRes from rfl] at hok
    exact FreeAllRes.noConfusion hok

/-- Witness for C8 at a concrete iteration bound and result. -/
theorem C8_shutdown_stuck_witness :
    srv_freeAllClients 3
      { heap := [(2, { next := 1, prev := 1, sd := 20, addr := "b" }),
                 (1, { next := 2, prev := 2, sd := 10, addr := "a" })], head := some 1 } []
      ≠ FreeAllRes.ok { heap := [], head := none } [] :=
  C8_shutdown_stuck 3 { heap := [], head := none } []

/-- C2 counterexample: when epoll registration fails after the Connection
was created, the on_error path of srv_handleAccept calls cl_free (which
closes the accepted socket 5) and then close(5) again, so that teardown
trigger passes the descriptor to close twice, not exactly once. -/
theorem C2_counterexample :
    countEv (Ev.closeCall 5)
      (srv_handleAccept { heap := [], head := none }
        { acceptRes := some (5, "peer"), setNonBlockingOk := true,
          mallocOk := true, epollCtlOk := false } 1).2 = 2
    ∧ ¬ countEv (Ev.closeCall 5)
      (srv_handleAccept { heap := [], head := none }
        { acceptRes := some (5, "peer"), setNonBlockingOk := true,
          mallocOk := true, epollCtlOk := false } 1).2 = 1 := by
  decide

/-- C2 (amended): for the teardown triggers that go through cl_free alone —
peer close, read error, an error or hangup event, and engine-wide shutdown —
a client with an open socket has its socket shut down and closed exactly
once, and in the same step the client is removed from the registry heap; a
second cl_free of the same address is an invalid dereference, not a second
close.  (In the remaining trigger, accept-setup failure at reactor
registration, the descriptor is additionally passed to close a second time;
see the counterexample.) -/
theorem C2_teardown_once (r : Registry) (p : Nat) (node : Node) (r1 : Registry)
    (effs : List Ev) (hp : hlookup r.heap p = some node) (hsd : node.sd > -1)
    (hf : cl_free r p = some (r1, effs)) :
    effs = [Ev.shutdownCall node.sd, Ev.closeCall node.sd]
    ∧ countEv (Ev.closeCall node.sd) effs = 1
    ∧ hlookup r1.heap p = none
    ∧ cl_free r1 p = none := by
  obtain ⟨heffs, hnone⟩ := cl_free_spec r p node r1 effs hp hf
  rw [if_pos hsd] at heffs
  refine ⟨heffs, ?_, hnone, ?_⟩
  · rw [heffs]
    simp [countEv]
  · unfold cl_free
    rw [hnone]
    rfl

/-- Witness for C2 at a concrete single-client registry. -/
theorem C2_teardown_once_witness :
    [Ev.shutdownCall 7, Ev.closeCall 7] = [Ev.shutdownCall 7, Ev.closeCall 7]
    ∧ countEv (Ev.closeCall 7) [Ev.shutdownCall 7, Ev.closeCall 7] = 1
    ∧ hlookup ([] : List (Nat × Node)) 1 = none
    ∧ cl_free { heap := [], head := none } 1 = none :=
  C2_teardown_once { heap := [(1, { next := 1, prev := 1, sd := 7, addr := "x" })],
                     head := some 1 } 1 { next := 1, prev := 1, sd := 7, addr := "x" }
    { heap := [], head := none } [Ev.shutdownCall 7, Ev.closeCall 7]
    (by decide) (by decide) (by decide)

/-- C7: a readiness event carrying an error or hangup condition, or lacking
the readable flag, is dispatched to the error handler regardless of whether
its association is the listener or a connection; the error handler logs the
condition, raises on_disconnect with the peer address of the associated
client, and then destroys that client, with no retry. -/
theorem C7_error_dispatch (f : EpollFlags) (a : Assoc)
    (hcond : f.err = true ∨ f.hup = true ∨ f.readable = false) :
    classifyEvent f a = Dispatch.toError a
    ∧ (∀ (r : Registry) (p : Nat) (node : Node) (r1 : Registry) (effs : List Ev),
        hlookup r.heap p = some node → cl_free r p = some (r1, effs) →
        srv_handleError r p
          = some (r1, Ev.logErr "epoll" :: Ev.onDisconnect node.addr :: effs)) := by
  constructor
  · unfold classifyEvent
    rcases hcond with h | h | h <;> simp [h]
  · intro r p node r1 effs hp hf
    unfold srv_handleError
    rw [hp, Option.some_bind, hf]
    rfl

/-- Witness for C7: a hangup-flagged event for the listener association is
classified as an error, and the error handler on a one-client registry
disconnects and destroys the client. -/
theorem C7_error_dispatch_witness :
    classifyEvent { err := false, hup := true, readable := true } Assoc.listener
      = Dispatch.toError Assoc.listener
    ∧ srv_handleError { heap := [(1, { next := 1, prev := 1, sd := 7, addr := "x" })],
                        head := some 1 } 1
      = some ({ heap := [], head := none },
          Ev.logErr "epoll" :: Ev.onDisconnect "x" ::
            [Ev.shutdownCall 7, Ev.closeCall 7]) :=
  ⟨(C7_error_dispatch { err := false, hup := true, readable := true } Assoc.listener
      (Or.inr (Or.inl rfl))).1,
   (C7_error_dispatch { err := false, hup := true, readable := true } Assoc.listener
      (Or.inr (Or.inl rfl))).2
     { heap := [(1, { next := 1, prev := 1, sd := 7, addr := "x" })], head := some 1 }
     1 { next := 1, prev := 1, sd := 7, addr := "x" } { heap := [], head := none }
     [Ev.shutdownCall 7, Ev.closeCall 7] (by decide) (by decide)⟩

/-- C9: calling run on an engine whose listener socket is already set fails
immediately with status -1, raises no handler events (the only output is the
diagnostic), and returns the engine state unchanged. -/
theorem C9_reentrant_run (srv : Server) (port queueSize : Int) (o : RunOracle)
    (loopFn : Server → Server × List Ev) (fuel : Nat) (h : srv.sd > -1) :
    srv_run (some srv) port queueSize o loopFn fuel
      = RunRes.ret (-1) (some srv) [Ev.logErr "Invalid server instance."] := by
  simp only [srv_run]
  rw [if_pos h]

/-- Witness for C9 at a concrete running engine. -/
theorem C9_reentrant_run_witness :
    srv_run (some (Server.mk none (Registry.mk [] none) 3 false)) 5033 64
      (RunOracle.mk (some 4) true true true true true) idLoop 0
      = RunRes.ret (-1) (some (Server.mk none (Registry.mk [] none) 3 false))
          [Ev.logErr "Invalid server instance."] :=
  C9_reentrant_run (Server.mk none (Registry.mk [] none) 3 false) 5033 64
    (RunOracle.mk (some 4) true true true true true) idLoop 0 (by decide)

/-- C10: every public engine operation tolerates a NULL engine reference:
srv_setHandler and srv_run return -1, srv_stop only logs a diagnostic and
returns no state, and srv_free is a no-op. -/
theorem C10_null_tolerance (h : Option HandlerSet) (port queueSize : Int)
    (o : RunOracle) (loopFn : Server → Server × List Ev) (fuel : Nat) :
    srv_setHandler none h = (-1, none)
    ∧ srv_run none port queueSize o loopFn fuel
      = RunRes.ret (-1) none [Ev.logErr "Invalid server instance."]
    ∧ srv_stop none = (none, [Ev.logErr "Invalid server instance."])
    ∧ srv_free none fuel = some [] := by
  refine ⟨rfl, rfl, rfl, rfl⟩

/-- C4 counterexample: with every callback registered, a failing
epoll_create1 does not abort run before side effects: on_start is raised
(and on_stop afterwards), and run returns 0 — not a failure status of at
least 1. -/
theorem C4_counterexample :
    srv_run (some (Server.mk (some (HandlerSet.mk true true true true true))
        (Registry.mk [] none) (-1) false)) 5033 64
      (RunOracle.mk (some 5) true true false true true) idLoop 1
      = RunRes.ret 0
          (some (Server.mk (some (HandlerSet.mk true true true true true))
            (Registry.mk [] none) (-1) false))
          [Ev.onStart, Ev.logErr "epoll_create1", Ev.onStop, Ev.closeCall 5]
    ∧ Ev.onStart ∈ [Ev.onStart, Ev.logErr "epoll_create1", Ev.onStop, Ev.closeCall 5]
    ∧ ¬ (0 : Int) ≥ 1 := by
  refine ⟨by decide, by decide, by decide⟩

/-- C4 (amended): if creation of the readiness queue (epoll_create1) or
allocation of the event buffer (calloc) fails, the wait/dispatch loop is
never entered, but run does not abort beforehand: on_start has already been
raised and on_stop is raised afterwards, the listener socket is closed and
reset to -1, and run returns 0 (the listen result), not a failure value of
at least 1. -/
theorem C4_queue_failure (srv : Server) (port queueSize lsd : Int) (o : RunOracle)
    (loopFn : Server → Server × List Ev) (fuel : Nat)
    (hsd : srv.sd = -1) (hcl : srv.clients = { heap := [], head := none })
    (hbind : o.bindSd = some lsd) (hnb : o.setNonBlockingOk = true)
    (hls : o.listenOk = true) :
    (o.epollCreateOk = false →
      srv_run (some srv) port queueSize o loopFn fuel
        = RunRes.ret 0 (some { srv with sd := -1 })
            (srv_onStart srv ++ [Ev.logErr "epoll_create1"] ++ srv_onStop srv
              ++ [Ev.closeCall lsd]))
    ∧ (o.epollCreateOk = true → o.epollAddListenerOk = true → o.callocOk = false →
      srv_run (some srv) port queueSize o loopFn fuel
        = RunRes.ret 0 (some { srv with sd := -1 })
            (srv_onStart srv ++ [Ev.logErr "calloc"] ++ srv_onStop srv
              ++ [Ev.closeCall lsd])) := by
  have hguard : ¬ srv.sd > -1 := by
    rw [hsd]
    decide
  have hfree : srv_freeAllClients fuel { heap := [], head := none } []
      = FreeAllRes.ok { heap := [], head := none } [] := by
    cases fuel <;> rfl
  constructor
  · intro hec
    simp [srv_run, srv_eventLoop, runEpilogue, srv_onStart, srv_onStop,
      hguard, hbind, hnb, hls, hec, hcl, hfree]
  · intro hec haddl hcal
    simp [srv_run, srv_eventLoop, runEpilogue, srv_onStart, srv_onStop,
      hguard, hbind, hnb, hls, hec, haddl, hcal, hcl, hfree]

/-- Witness for C4 at a concrete engine with all callbacks registered and a
failing epoll_create1. -/
theorem C4_queue_failure_witness :
    srv_run (some (Server.mk (some (HandlerSet.mk true true true true true))
        (Registry.mk [] none) (-1) false)) 5033 64
      (RunOracle.mk (some 5) true true false true true) idLoop 2
      = RunRes.ret 0
          (some { Server.mk (some (HandlerSet.mk true true true true true))
              (Registry.mk [] none) (-1) false with sd := -1 })
          (srv_onStart (Server.mk (some (HandlerSet.mk true true true true true))
              (Registry.mk [] none) (-1) false)
            ++ [Ev.logErr "epoll_create1"]
            ++ srv_onStop (Server.mk (some (HandlerSet.mk true true true true true))
                (Registry.mk [] none) (-1) false)
            ++ [Ev.closeCall 5]) :=
  (C4_queue_failure (Server.mk (some (HandlerSet.mk true true true true true))
      (Registry.mk [] none) (-1) false) 5033 64 5
    (RunOracle.mk (some 5) true true false true true) idLoop 2
    rfl rfl rfl rfl rfl).1 rfl

/-- C6: on each readable event for the listener exactly one accept is
attempted; accept failure is only logged and the registry is untouched; on
success the socket is made non-blocking, the client is created and
registered edge-triggered, and on_connect is raised; a failure of the
non-blocking step or of the client allocation closes the raw socket without
raising on_connect; a failure of the epoll registration tears the
just-created client down (its teardown effects are emitted and it is removed
from the heap) and closes the raw socket, again without on_connect. -/
theorem C6_accept_handling (r : Registry) (o : AcceptOracle) (p : Nat)
    (hsp : spliceOk r = true) (hfresh : hlookup r.heap p = none) :
    countEv Ev.acceptCall (srv_handleAccept r o p).2 = 1
    ∧ (o.acceptRes = none →
        srv_handleAccept r o p = (r, [Ev.acceptCall, Ev.logErr "accept"]))
    ∧ (∀ sd addr, o.acceptRes = some (sd, addr) → o.setNonBlockingOk = false →
        srv_handleAccept r o p
          = (r, [Ev.acceptCall, Ev.logErr "fcntl", Ev.closeCall sd]))
    ∧ (∀ sd addr, o.acceptRes = some (sd, addr) → o.setNonBlockingOk = true →
        o.mallocOk = false →
        srv_handleAccept r o p
          = (r, [Ev.acceptCall, Ev.logErr "malloc", Ev.closeCall sd]))
    ∧ (∀ sd addr, o.acceptRes = some (sd, addr) → o.setNonBlockingOk = true →
        o.mallocOk = true →
        (cl_create r p sd addr).isSome = true
        ∧ (∀ r1, cl_create r p sd addr = some r1 →
            (o.epollCtlOk = true →
              srv_handleAccept r o p
                = (r1, [Ev.acceptCall, Ev.epollCtlAdd sd, Ev.onConnect addr]))
            ∧ (o.epollCtlOk = false →
              (cl_free r1 p).isSome = true
              ∧ (∀ r2 effs, cl_free r1 p = some (r2, effs) →
                  srv_handleAccept r o p
                    = (r2, [Ev.acceptCall, Ev.logErr "epoll_ctl"] ++ effs
                        ++ [Ev.closeCall sd])
                  ∧ hlookup r2.heap p = none
                  ∧ Ev.onConnect addr ∉ effs)))) := by
  refine ⟨?_, ?_, ?_, ?_, ?_⟩
  · rcases ha : o.acceptRes with _ | ⟨sd, addr⟩
    · simp [srv_handleAccept, ha, countEv]
    · by_cases hnb : o.setNonBlockingOk = false
      · simp [srv_handleAccept, ha, hnb, countEv]
      · by_cases hm : o.mallocOk = false
        · simp [srv_handleAccept, ha, hnb, hm, countEv]
        · rcases hc : cl_create r p sd addr with _ | r1
          · simp [srv_handleAccept, ha, hnb, hm, hc, countEv]
          · by_cases he : o.epollCtlOk = false
            · rcases hcf : cl_free r1 p with _ | ⟨r2, effs⟩
              · simp [srv_handleAccept, ha, hnb, hm, hc, he, hcf, countEv]
              · obtain ⟨-, hsh⟩ := cl_free_some_shape r1 p r2 effs hcf
                rcases hsh with rfl | ⟨s, rfl⟩ <;>
                  simp [srv_handleAccept, ha, hnb, hm, hc, he, hcf, countEv]
            · simp [srv_handleAccept, ha, hnb, hm, hc, he, countEv]
  · intro ha
    simp [srv_handleAccept, ha]
  · intro sd addr ha hnb
    simp [srv_handleAccept, ha, hnb]
  · intro sd addr ha hnb hm
    simp [srv_handleAccept, ha, hnb, hm]
  · intro sd addr ha hnb hm
    refine ⟨cl_create_isSome r p sd addr hsp, ?_⟩
    intro r1 hc
    constructor
    · intro he
      simp [srv_handleAccept, ha, hnb, hm, hc, he]
    · intro he
      refine ⟨cl_free_create_isSome r p sd addr r1 hfresh hc, ?_⟩
      intro r2 effs hcf
      refine ⟨?_, (cl_free_some_shape r1 p r2 effs hcf).1, ?_⟩
      · simp [srv_handleAccept, ha, hnb, hm, hc, he, hcf]
      · obtain ⟨-, hsh⟩ := cl_free_some_shape r1 p r2 effs hcf
        rcases hsh with rfl | ⟨s, rfl⟩ <;> simp

/-- Witness for C6: one accept call is counted on a successful accept into
an empty registry. -/
theorem C6_accept_handling_witness :
    countEv Ev.acceptCall
      (srv_handleAccept (Registry.mk [] none)
        (AcceptOracle.mk (some (5, "a")) true true true) 1).2 = 1 :=
  (C6_accept_handling (Registry.mk [] none)
    (AcceptOracle.mk (some (5, "a")) true true true) 1 (by decide) (by decide)).1
